import Mathlib

set_option linter.unusedSectionVars false
set_option linter.unusedVariables false

/-!
# Vulnerability-list data model and set algebra of deep-learning-containers

A shallow embedding of the vulnerability-allowlist machinery in
`test/test_utils/security.py`: the severity scale, the two record formats
(ECR basic scan and ECR enhanced scan), collection construction with a
minimum-severity threshold, the format-specific equivalence predicates,
the difference and union operators, canonical sorting and saving, and the
reconciliation step of the failure routine.

Embedding conventions:
* Python dict-shaped records with a fixed key set become Lean structures;
  Python dict equality on such records is field-wise equality.
* Severity strings are embedded as the `CVESeverity` enumeration.  The
  source stores the name (for instance "HIGH") and evaluates
  `CVESeverity[name]`, a bijection between the six valid names and the
  integer values 0..5; an unknown name raises a `KeyError` in the source
  and no embedded operation is defined on it.
* CVSS scores (Python floats parsed from one-decimal JSON numbers) are
  embedded as rationals.
* The package-name → record-list mapping (`self.vulnerability_list`, a
  Python insertion-ordered dict with unique keys) is an association list.
* `remediation` (an opaque JSON object carried through unchanged and only
  ever compared structurally) is embedded as an opaque string.
* Fallible operations (`save_vulnerability_list`) return `Except`;
  operations the source lets return `None` return `Option`.
-/

namespace DLCSecurity

/-- The severity scale of `test/test_utils/security.py` (class CVESeverity,
an IntEnum): UNDEFINED 0, INFORMATIONAL 1, LOW 2, MEDIUM 3, HIGH 4,
CRITICAL 5. -/
inductive CVESeverity where
  | UNDEFINED
  | INFORMATIONAL
  | LOW
  | MEDIUM
  | HIGH
  | CRITICAL
deriving DecidableEq

/-- The integer value of a severity (the IntEnum value used by every
threshold comparison in the source). -/
def CVESeverity.val : CVESeverity → Nat
  | .UNDEFINED => 0
  | .INFORMATIONAL => 1
  | .LOW => 2
  | .MEDIUM => 3
  | .HIGH => 4
  | .CRITICAL => 5

/-- One element of a basic-scan record's "attributes" list: a
{"key": ..., "value": ...} pair as produced by the ECR basic scan. -/
structure BasicScanAttribute where
  key : String
  value : String
deriving DecidableEq

/-- A basic-scan vulnerability record.  For ECR basic scans the ECR format
and the allowlist format coincide: a dict with "name", "severity" and an
"attributes" list (see the docstrings around lines 311-324 of
test/test_utils/security.py). -/
structure BasicScanVulnerability where
  name : String
  severity : CVESeverity
  attributes : List BasicScanAttribute
deriving DecidableEq

/-- VulnerablePackageDetails (security.py lines 28-55): the
"package_details" sub-record of an allowlist-format record.  `filePath`,
`packageManager` and `release` default to Python `None`, hence `Option`. -/
structure VulnerablePackageDetails where
  file_path : Option String
  name : String
  package_manager : Option String
  version : String
  release : Option String
deriving DecidableEq

/-- AllowListFormatVulnerability (security.py lines 58-108): the canonical
(allowlist-format) record an ECR enhanced-scan finding is normalized
into. -/
structure AllowListFormatVulnerability where
  description : String
  vulnerability_id : String
  name : String
  package_name : String
  package_details : VulnerablePackageDetails
  remediation : String
  cvss_v3_score : ℚ
  cvss_v30_score : ℚ
  cvss_v2_score : ℚ
  cvss_v3_severity : CVESeverity
  source_url : String
  source : String
  severity : String
  status : String
  title : String
deriving DecidableEq

/-- One entry of the "cvss" list inside "packageVulnerabilityDetails" of a
raw enhanced-scan finding: a {"version": ..., "baseScore": ...} pair. -/
structure CvssScoreEntry where
  version : String
  baseScore : ℚ
deriving DecidableEq

/-- One entry of "vulnerablePackages" inside a raw enhanced-scan finding
(the keyword arguments of VulnerablePackageDetails.__init__). -/
structure RawVulnerablePackage where
  name : String
  version : String
  filePath : Option String
  packageManager : Option String
  release : Option String
deriving DecidableEq

/-- The "packageVulnerabilityDetails" object of a raw enhanced-scan
finding. -/
structure PackageVulnerabilityDetails where
  vulnerabilityId : String
  sourceUrl : String
  source : String
  cvss : List CvssScoreEntry
  vulnerablePackages : List RawVulnerablePackage
deriving DecidableEq

/-- A raw ECR enhanced-scan finding (the keyword arguments of
AllowListFormatVulnerability.__init__, security.py lines 83-93). -/
structure EcrEnhancedFinding where
  description : String
  packageVulnerabilityDetails : PackageVulnerabilityDetails
  remediation : String
  severity : String
  status : String
  title : String
deriving DecidableEq

/-- AllowListFormatVulnerability.get_cvss_score (security.py lines
110-114): the baseScore of the first cvss entry whose version matches
`score_version`, and 0.0 when none matches. -/
def get_cvss_score (pvd : PackageVulnerabilityDetails) (score_version : String) : ℚ :=
  match pvd.cvss.find? (fun c => c.version == score_version) with
  | some c => c.baseScore
  | none => 0

/-- AllowListFormatVulnerability.get_cvss_v3_severity (security.py lines
117-126): the fixed CVSS v3 thresholds.  The source's literal 0.1 is the
rational 1/10 (the decimal is exact there). -/
def get_cvss_v3_severity (cvss_v3_score : ℚ) : CVESeverity :=
  if 9 ≤ cvss_v3_score then .CRITICAL
  else if 7 ≤ cvss_v3_score then .HIGH
  else if 4 ≤ cvss_v3_score then .MEDIUM
  else if mkRat 1 10 ≤ cvss_v3_score then .LOW
  else .UNDEFINED

/-- The record built by `AllowListFormatVulnerability(**finding)` followed
by `set_package_details_and_name(VulnerablePackageDetails(**package))`
(security.py lines 94-108, 128-130 and 445-449): one canonical record per
vulnerable package of a raw enhanced-scan finding. -/
def AllowListFormatVulnerability.fromEcrFinding (f : EcrEnhancedFinding)
    (pkg : RawVulnerablePackage) : AllowListFormatVulnerability :=
  let pvd := f.packageVulnerabilityDetails
  { description := f.description
    vulnerability_id := pvd.vulnerabilityId
    name := pvd.vulnerabilityId
    package_name := pkg.name
    package_details :=
      { file_path := pkg.filePath
        name := pkg.name
        package_manager := pkg.packageManager
        version := pkg.version
        release := pkg.release }
    remediation := f.remediation
    cvss_v3_score := get_cvss_score pvd "3.1"
    cvss_v30_score := get_cvss_score pvd "3.0"
    cvss_v2_score := get_cvss_score pvd "2.0"
    cvss_v3_severity := get_cvss_v3_severity (get_cvss_score pvd "3.1")
    source_url := pvd.sourceUrl
    source := pvd.source
    severity := f.severity
    status := f.status
    title := f.title }

/-! ## The collection: package name → list of records

`self.vulnerability_list` is a Python dict from package name to a list of
records.  The key type is `Option String` for basic scans (the package
name is extracted from the attribute list and may be Python `None`) and
`String` for enhanced scans. -/

/-- The association-list embedding of `self.vulnerability_list`. -/
abbrev VulnMap (K R : Type) := List (K × List R)

section GenericCollection

variable {K R : Type} [DecidableEq K] [DecidableEq R]

/-- ScanVulnerabilityList.get_flattened_vulnerability_list (security.py
lines 174-188): the concatenation of all the per-package lists. -/
def flattenMap (m : VulnMap K R) : List R :=
  (m.map Prod.snd).flatten

/-- Python `self.vulnerability_list[k]` guarded by a `k in` check: the
list stored under key `k`, when the key is present. -/
def lookupKey (m : VulnMap K R) (k : K) : Option (List R) :=
  (m.find? (fun p => decide (p.1 = k))).map Prod.snd

/-- The `if package_name not in self.vulnerability_list:
self.vulnerability_list[package_name] = []` step of the constructors: a
missing key is bound to the empty list (at the end, matching dict
insertion order). -/
def ensureKey (m : VulnMap K R) (k : K) : VulnMap K R :=
  if m.any (fun p => decide (p.1 = k)) then m else m ++ [(k, [])]

/-- The `self.vulnerability_list[package_name].append(vulnerability)` step
of the constructors. -/
def appendVuln (m : VulnMap K R) (k : K) (v : R) : VulnMap K R :=
  m.map (fun p => if p.1 = k then (p.1, p.2 ++ [v]) else p)

/-- ScanVulnerabilityList.__contains__ (security.py lines 224-238):
look the probe's package name up, then scan the stored list with the
format's equivalence predicate (probe first, stored record second). -/
def containsVuln (keyOf : R → K) (equiv : R → R → Bool)
    (m : VulnMap K R) (v : R) : Bool :=
  match lookupKey m (keyOf v) with
  | none => false
  | some l => l.any (fun w => equiv v w)

/-- A ScanVulnerabilityList object: the minimum-severity threshold fixed
at construction (as its IntEnum value) and the package-name mapping. -/
structure ScanVulnerabilityList (K R : Type) where
  minimum_severity : Nat
  vulnerability_list : VulnMap K R
deriving DecidableEq

/-- ScanVulnerabilityList.__sub__ (security.py lines 263-285),
parameterized by the format's key extractor, equivalence predicate and
fresh-collection constructor (`type(self)(...)` followed by
`construct_allowlist_from_allowlist_formatted_vulnerabilities`).  An
empty `self` mapping and an empty result both give the `None` sentinel;
an empty `other` mapping returns `self` unchanged. -/
def subLists (keyOf : R → K) (equiv : R → R → Bool)
    (build : Nat → List R → VulnMap K R)
    (A B : ScanVulnerabilityList K R) : Option (ScanVulnerabilityList K R) :=
  if A.vulnerability_list = [] then none
  else if B.vulnerability_list = [] then some A
  else
    let missing := (flattenMap A.vulnerability_list).filter
      (fun v => !(containsVuln keyOf equiv B.vulnerability_list v))
    if missing = [] then none
    else some ⟨A.minimum_severity, build A.minimum_severity missing⟩

/-- Modelled from the spec: `test_utils.uniquify_list_of_dict` is not
among the provided sources; per the spec (section 4.4) union and the
sorted view deduplicate a record list by full structural equality, not by
the equivalence predicate.  Embedded as Mathlib's `List.dedup`. -/
def uniquify_list_of_dict (l : List R) : List R :=
  l.dedup

/-- ScanVulnerabilityList.__add__ (security.py lines 287-303): flatten
both sides, deduplicate exact duplicates, rebuild through the format's
constructor with `self`'s threshold; `None` when there is nothing. -/
def addLists (build : Nat → List R → VulnMap K R)
    (A B : ScanVulnerabilityList K R) : Option (ScanVulnerabilityList K R) :=
  let all := flattenMap A.vulnerability_list ++ flattenMap B.vulnerability_list
  if all = [] then none
  else some ⟨A.minimum_severity, build A.minimum_severity (uniquify_list_of_dict all)⟩

/-- The inner-list ordering of get_sorted_vulnerability_list: sort by the
record's "name" field. -/
def nameLe (nameOf : R → String) : R → R → Prop :=
  fun a b => nameOf a ≤ nameOf b

instance (nameOf : R → String) : DecidableRel (nameLe nameOf) :=
  fun a b => inferInstanceAs (Decidable (nameOf a ≤ nameOf b))

/-- The outer ordering of get_sorted_vulnerability_list, lifted to the
key-list pairs (Python sorts the items; keys are unique, so only the keys
decide). -/
def keyPairLe (kle : K → K → Prop) : (K × List R) → (K × List R) → Prop :=
  fun p q => kle p.1 q.1

instance (kle : K → K → Prop) [DecidableRel kle] :
    DecidableRel (keyPairLe (R := R) kle) :=
  fun p q => inferInstanceAs (Decidable (kle p.1 q.1))

/-- ScanVulnerabilityList.get_sorted_vulnerability_list (security.py
lines 190-214): deduplicate each package's list (full structural
equality), sort it by the record's "name", then sort the outer mapping by
key.  The original mapping is left untouched (the source deep-copies). -/
def get_sorted_vulnerability_list (nameOf : R → String)
    (kle : K → K → Prop) [DecidableRel kle] (m : VulnMap K R) : VulnMap K R :=
  List.insertionSort (keyPairLe kle)
    (m.map (fun p =>
      (p.1, List.insertionSort (nameLe nameOf) (uniquify_list_of_dict p.2))))

/-- ScanVulnerabilityList.save_vulnerability_list (security.py lines
216-222): the sorted canonical form is written when the mapping is truthy
(has at least one key); an empty mapping raises ValueError. -/
def save_vulnerability_list (nameOf : R → String)
    (kle : K → K → Prop) [DecidableRel kle]
    (A : ScanVulnerabilityList K R) : Except String (VulnMap K R) :=
  if A.vulnerability_list = [] then
    Except.error "self.vulnerability_list is empty."
  else
    Except.ok (get_sorted_vulnerability_list nameOf kle A.vulnerability_list)

end GenericCollection

/-! ## ECR basic scans -/

namespace ECRBasicScanVulnerabilityList

/-- get_vulnerability_package_name_from_allowlist_formatted_vulnerability
(security.py lines 311-324): the value of the first attribute with key
"package_name", `None` when there is none. -/
def get_package_name (v : BasicScanVulnerability) : Option String :=
  (v.attributes.find? (fun a => a.key == "package_name")).map (fun a => a.value)

/-- One iteration of
construct_allowlist_from_allowlist_formatted_vulnerabilities (security.py
lines 343-356): the package key is created first, unconditionally; the
record is appended only when its severity meets the threshold. -/
def constructStep (min : Nat) (m : VulnMap (Option String) BasicScanVulnerability)
    (v : BasicScanVulnerability) : VulnMap (Option String) BasicScanVulnerability :=
  let k := get_package_name v
  let m1 := ensureKey m k
  if min ≤ v.severity.val then appendVuln m1 k v else m1

/-- construct_allowlist_from_allowlist_formatted_vulnerabilities
(security.py lines 343-356), extending the current mapping `m`. -/
def construct_allowlist_from_allowlist_formatted_vulnerabilities (min : Nat)
    (m : VulnMap (Option String) BasicScanVulnerability)
    (l : List BasicScanVulnerability) : VulnMap (Option String) BasicScanVulnerability :=
  l.foldl (constructStep min) m

/-- construct_allowlist_from_ecr_scan_result (security.py lines 358-367):
for basic scans the ECR format and the allowlist format coincide, so this
is the same construction. -/
def construct_allowlist_from_ecr_scan_result (min : Nat)
    (m : VulnMap (Option String) BasicScanVulnerability)
    (l : List BasicScanVulnerability) : VulnMap (Option String) BasicScanVulnerability :=
  construct_allowlist_from_allowlist_formatted_vulnerabilities min m l

/-- One record of construct_allowlist_from_file (security.py lines
326-341): here the severity check comes first, and the key (the file's
JSON key, always a string) is created only when a record is actually
appended. -/
def fileStep (min : Nat) (m : VulnMap (Option String) BasicScanVulnerability)
    (k : String) (v : BasicScanVulnerability) :
    VulnMap (Option String) BasicScanVulnerability :=
  if min ≤ v.severity.val then appendVuln (ensureKey m (some k)) (some k) v else m

/-- construct_allowlist_from_file (security.py lines 326-341), reading an
already-parsed allowlist JSON object. -/
def construct_allowlist_from_file (min : Nat)
    (m : VulnMap (Option String) BasicScanVulnerability)
    (file : List (String × List BasicScanVulnerability)) :
    VulnMap (Option String) BasicScanVulnerability :=
  file.foldl (fun m1 p => p.2.foldl (fun m2 v => fileStep min m2 p.1 v) m1) m

/-- ECRBasicScanVulnerabilityList.are_vulnerabilities_equivalent
(security.py lines 369-392): the (name, severity) pairs must match and
every attribute of the first record other than package_version must be a
member of the second record's attribute list. -/
def are_vulnerabilities_equivalent (v1 v2 : BasicScanVulnerability) : Bool :=
  if v1.name = v2.name ∧ v1.severity = v2.severity then
    (v1.attributes.filter (fun a => !(a.key == "package_version"))).all
      (fun a => decide (a ∈ v2.attributes))
  else false

/-- The basic-scan collection type. -/
abbrev T := ScanVulnerabilityList (Option String) BasicScanVulnerability

/-- ScanVulnerabilityList.__sub__ instantiated for basic scans. -/
def sub (A B : T) : Option T :=
  subLists get_package_name are_vulnerabilities_equivalent
    (fun min l => construct_allowlist_from_allowlist_formatted_vulnerabilities min [] l)
    A B

/-- ScanVulnerabilityList.__add__ instantiated for basic scans. -/
def add (A B : T) : Option T :=
  addLists
    (fun min l => construct_allowlist_from_allowlist_formatted_vulnerabilities min [] l)
    A B

/-- The outer sort order for basic-scan keys.  Python would raise a
TypeError comparing `None` with a string; the embedding totalizes the
order by putting `None` first (no claim sorts a mapping with a `None`
key). -/
def keyLe : Option String → Option String → Prop
  | none, _ => True
  | some _, none => False
  | some a, some b => a ≤ b

instance : DecidableRel keyLe := by
  intro a b
  cases a <;> cases b <;> simp only [keyLe] <;> infer_instance

/-- get_sorted_vulnerability_list for basic scans. -/
def get_sorted (m : VulnMap (Option String) BasicScanVulnerability) :
    VulnMap (Option String) BasicScanVulnerability :=
  get_sorted_vulnerability_list (fun v => v.name) keyLe m

/-- save_vulnerability_list for basic scans. -/
def save (A : T) : Except String (VulnMap (Option String) BasicScanVulnerability) :=
  save_vulnerability_list (fun v => v.name) keyLe A

end ECRBasicScanVulnerabilityList

/-! ## ECR enhanced scans -/

namespace ECREnhancedScanVulnerabilityList

/-- get_vulnerability_package_name_from_allowlist_formatted_vulnerability
(security.py lines 400-406). -/
def get_package_name (v : AllowListFormatVulnerability) : String :=
  v.package_name

/-- Modelled from the spec: `test_utils.check_if_two_dictionaries_are_equal`
is not among the provided sources; per the spec (section 4.3) enhanced
records compare their package_details with field-wise equality ignoring
the "version" key. -/
def package_details_equal_ignoring_version (p q : VulnerablePackageDetails) : Bool :=
  decide (p.file_path = q.file_path ∧ p.name = q.name ∧
    p.package_manager = q.package_manager ∧ p.release = q.release)

/-- Modelled from the spec: the second
`test_utils.check_if_two_dictionaries_are_equal` call of the enhanced
predicate compares all top-level fields with field-wise equality ignoring
the "package_details" key. -/
def equal_ignoring_package_details (v w : AllowListFormatVulnerability) : Bool :=
  decide (v.description = w.description ∧ v.vulnerability_id = w.vulnerability_id ∧
    v.name = w.name ∧ v.package_name = w.package_name ∧
    v.remediation = w.remediation ∧ v.cvss_v3_score = w.cvss_v3_score ∧
    v.cvss_v30_score = w.cvss_v30_score ∧ v.cvss_v2_score = w.cvss_v2_score ∧
    v.cvss_v3_severity = w.cvss_v3_severity ∧ v.source_url = w.source_url ∧
    v.source = w.source ∧ v.severity = w.severity ∧ v.status = w.status ∧
    v.title = w.title)

/-- ECREnhancedScanVulnerabilityList.are_vulnerabilities_equivalent
(security.py lines 460-476): package_details match ignoring version, and
everything else matches ignoring package_details. -/
def are_vulnerabilities_equivalent (v w : AllowListFormatVulnerability) : Bool :=
  if package_details_equal_ignoring_version v.package_details w.package_details then
    equal_ignoring_package_details v w
  else false

/-- One iteration of
construct_allowlist_from_allowlist_formatted_vulnerabilities (security.py
lines 422-436): a record below the threshold is skipped outright (its key
is not created). -/
def constructStep (min : Nat) (m : VulnMap String AllowListFormatVulnerability)
    (v : AllowListFormatVulnerability) : VulnMap String AllowListFormatVulnerability :=
  if v.cvss_v3_severity.val < min then m
  else appendVuln (ensureKey m v.package_name) v.package_name v

/-- construct_allowlist_from_allowlist_formatted_vulnerabilities
(security.py lines 422-436). -/
def construct_allowlist_from_allowlist_formatted_vulnerabilities (min : Nat)
    (m : VulnMap String AllowListFormatVulnerability)
    (l : List AllowListFormatVulnerability) : VulnMap String AllowListFormatVulnerability :=
  l.foldl (constructStep min) m

/-- construct_allowlist_from_file (security.py lines 408-420): feed every
package's list of the parsed file through the allowlist-format
construction. -/
def construct_allowlist_from_file (min : Nat)
    (m : VulnMap String AllowListFormatVulnerability)
    (file : List (String × List AllowListFormatVulnerability)) :
    VulnMap String AllowListFormatVulnerability :=
  file.foldl
    (fun m1 p => construct_allowlist_from_allowlist_formatted_vulnerabilities min m1 p.2)
    m

/-- The per-vulnerable-package body of
construct_allowlist_from_ecr_scan_result (security.py lines 445-456):
normalize, then skip when the derived cvss_v3_severity is below the
threshold. -/
def ecrPackageStep (min : Nat) (f : EcrEnhancedFinding)
    (m : VulnMap String AllowListFormatVulnerability) (pkg : RawVulnerablePackage) :
    VulnMap String AllowListFormatVulnerability :=
  let v := AllowListFormatVulnerability.fromEcrFinding f pkg
  if v.cvss_v3_severity.val < min then m
  else appendVuln (ensureKey m v.package_name) v.package_name v

/-- The per-finding body of construct_allowlist_from_ecr_scan_result:
fan out over the finding's vulnerablePackages. -/
def ecrFindingStep (min : Nat) (m : VulnMap String AllowListFormatVulnerability)
    (f : EcrEnhancedFinding) : VulnMap String AllowListFormatVulnerability :=
  f.packageVulnerabilityDetails.vulnerablePackages.foldl (ecrPackageStep min f) m

/-- get_sorted_vulnerability_list for enhanced scans (keys are plain
strings). -/
def get_sorted (m : VulnMap String AllowListFormatVulnerability) :
    VulnMap String AllowListFormatVulnerability :=
  get_sorted_vulnerability_list (fun v => v.name) (fun a b : String => a ≤ b) m

/-- construct_allowlist_from_ecr_scan_result (security.py lines 438-458):
process every finding, then replace the mapping by its sorted view. -/
def construct_allowlist_from_ecr_scan_result (min : Nat)
    (m : VulnMap String AllowListFormatVulnerability)
    (l : List EcrEnhancedFinding) : VulnMap String AllowListFormatVulnerability :=
  get_sorted (l.foldl (ecrFindingStep min) m)

/-- The enhanced-scan collection type. -/
abbrev T := ScanVulnerabilityList String AllowListFormatVulnerability

/-- ScanVulnerabilityList.__sub__ instantiated for enhanced scans. -/
def sub (A B : T) : Option T :=
  subLists get_package_name are_vulnerabilities_equivalent
    (fun min l => construct_allowlist_from_allowlist_formatted_vulnerabilities min [] l)
    A B

/-- ScanVulnerabilityList.__add__ instantiated for enhanced scans. -/
def add (A B : T) : Option T :=
  addLists
    (fun min l => construct_allowlist_from_allowlist_formatted_vulnerabilities min [] l)
    A B

/-- save_vulnerability_list for enhanced scans. -/
def save (A : T) : Except String (VulnMap String AllowListFormatVulnerability) :=
  save_vulnerability_list (fun v => v.name) (fun a b : String => a ≤ b) A

end ECREnhancedScanVulnerabilityList

/-! ## Reconciliation (the pure fragment of the failure routine) -/

/-- get_vulnerabilites_fixable_by_upgrade (security.py lines 676-696),
for the basic-scan lists the ECR-scan test builds: the difference of the
current scan against the upgraded scan, united with the difference of the
allowlist against the upgraded scan; whenever one difference is the
`None` sentinel the other is returned as is. -/
def get_vulnerabilites_fixable_by_upgrade
    (image_allowlist ecr_image_vulnerability_list upgraded_image_vulnerability_list :
      ECRBasicScanVulnerabilityList.T) : Option ECRBasicScanVulnerabilityList.T :=
  let fixable_ecr :=
    ECRBasicScanVulnerabilityList.sub ecr_image_vulnerability_list
      upgraded_image_vulnerability_list
  let fixable_allowlist :=
    ECRBasicScanVulnerabilityList.sub image_allowlist upgraded_image_vulnerability_list
  match fixable_ecr, fixable_allowlist with
  | some x, some y => ECRBasicScanVulnerabilityList.add x y
  | some x, none => some x
  | none, some y => some y
  | none, none => none

/-- The two partitions conduct_failure_routine computes (security.py
lines 722-725): the fixable-by-upgrade collection and the newly found
non-fixable collection `upgraded_image_vulnerability_list - image_allowlist`. -/
def conduct_failure_routine_partitions
    (image_allowlist ecr_image_vulnerability_list upgraded_image_vulnerability_list :
      ECRBasicScanVulnerabilityList.T) :
    Option ECRBasicScanVulnerabilityList.T × Option ECRBasicScanVulnerabilityList.T :=
  (get_vulnerabilites_fixable_by_upgrade image_allowlist ecr_image_vulnerability_list
      upgraded_image_vulnerability_list,
   ECRBasicScanVulnerabilityList.sub upgraded_image_vulnerability_list image_allowlist)

/-- The flattened record count of an operation result, with the `None`
sentinel counting as zero records. -/
def result_flattened_length {K R : Type} :
    Option (ScanVulnerabilityList K R) → Nat
  | none => 0
  | some u => (flattenMap u.vulnerability_list).length

/-! ## Concrete sample data used throughout the verification -/

/-- A MEDIUM basic-scan record for package pkgA. -/
def vMedSample : BasicScanVulnerability :=
  { name := "CVE-2024-0001"
    severity := .MEDIUM
    attributes := [⟨"package_name", "pkgA"⟩, ⟨"package_version", "1.0"⟩] }

/-- A CRITICAL basic-scan record for package pkgC. -/
def vCritSample : BasicScanVulnerability :=
  { name := "CVE-2024-0002"
    severity := .CRITICAL
    attributes := [⟨"package_name", "pkgC"⟩, ⟨"package_version", "2.0"⟩] }

/-- The CVE-1 MEDIUM record of the reconciliation scenario. -/
def cve1Sample : BasicScanVulnerability :=
  { name := "CVE-1"
    severity := .MEDIUM
    attributes := [⟨"package_name", "pkgA"⟩] }

/-- A MEDIUM enhanced-scan allowlist-format record for package pkgE. -/
def wMedSample : AllowListFormatVulnerability :=
  { description := "d1"
    vulnerability_id := "CVE-2024-1001"
    name := "CVE-2024-1001"
    package_name := "pkgE"
    package_details := ⟨some "os", "pkgE", some "OS", "1.1", some "r0"⟩
    remediation := "rem1"
    cvss_v3_score := 5
    cvss_v30_score := 0
    cvss_v2_score := 0
    cvss_v3_severity := .MEDIUM
    source_url := "u1"
    source := "s1"
    severity := "MEDIUM"
    status := "ACTIVE"
    title := "t1" }

/-- A CRITICAL enhanced-scan allowlist-format record for package pkgF. -/
def wCritSample : AllowListFormatVulnerability :=
  { description := "d2"
    vulnerability_id := "CVE-2024-1002"
    name := "CVE-2024-1002"
    package_name := "pkgF"
    package_details := ⟨some "os", "pkgF", some "OS", "3.1", some "r1"⟩
    remediation := "rem2"
    cvss_v3_score := mkRat 98 10
    cvss_v30_score := 0
    cvss_v2_score := 0
    cvss_v3_severity := .CRITICAL
    source_url := "u2"
    source := "s2"
    severity := "CRITICAL"
    status := "ACTIVE"
    title := "t2" }

/-- A small well-formed basic-scan collection with a MEDIUM threshold. -/
def basicSampleList : ECRBasicScanVulnerabilityList.T :=
  ⟨CVESeverity.MEDIUM.val,
    ECRBasicScanVulnerabilityList.construct_allowlist_from_allowlist_formatted_vulnerabilities
      CVESeverity.MEDIUM.val [] [vMedSample, vCritSample]⟩

/-- A small well-formed enhanced-scan collection with a MEDIUM threshold. -/
def enhancedSampleList : ECREnhancedScanVulnerabilityList.T :=
  ⟨CVESeverity.MEDIUM.val,
    ECREnhancedScanVulnerabilityList.construct_allowlist_from_allowlist_formatted_vulnerabilities
      CVESeverity.MEDIUM.val [] [wMedSample, wCritSample]⟩

/-- An empty basic-scan collection with a MEDIUM threshold. -/
def emptyBasicList : ECRBasicScanVulnerabilityList.T :=
  ⟨CVESeverity.MEDIUM.val, []⟩

/-- The current-scan collection of the reconciliation scenario:
{pkgA: [CVE-1 MEDIUM]}. -/
def currentScanSample : ECRBasicScanVulnerabilityList.T :=
  ⟨CVESeverity.MEDIUM.val,
    ECRBasicScanVulnerabilityList.construct_allowlist_from_allowlist_formatted_vulnerabilities
      CVESeverity.MEDIUM.val [] [cve1Sample]⟩

/-- A basic-scan collection built from an input repeating the same record
twice: the constructor appends both copies. -/
def duplicatedBasicList : ECRBasicScanVulnerabilityList.T :=
  ⟨CVESeverity.MEDIUM.val,
    ECRBasicScanVulnerabilityList.construct_allowlist_from_allowlist_formatted_vulnerabilities
      CVESeverity.MEDIUM.val [] [cve1Sample, cve1Sample]⟩

/-- A raw enhanced-scan finding whose cvss list carries v3.0 and v2.0
entries but no v3.1 entry. -/
def findingNo31 : EcrEnhancedFinding :=
  { description := "d"
    packageVulnerabilityDetails :=
      { vulnerabilityId := "CVE-2024-9999"
        sourceUrl := "u"
        source := "s"
        cvss := [⟨"3.0", mkRat 91 10⟩, ⟨"2.0", 5⟩]
        vulnerablePackages := [⟨"pkgE", "1.0", some "fp", some "os", some "r"⟩] }
    remediation := "r"
    severity := "HIGH"
    status := "ACTIVE"
    title := "t" }

/-- The vulnerable-package entry of the sample finding. -/
def pkgSample : RawVulnerablePackage :=
  ⟨"pkgE", "1.0", some "fp", some "os", some "r"⟩

/-- Replace the value of every package_version attribute, leaving every
other attribute untouched: the version-only mutation of a basic-scan
record. -/
def setVersionAttribute (newValue : String) (a : BasicScanAttribute) :
    BasicScanAttribute :=
  if a.key = "package_version" then ⟨a.key, newValue⟩ else a

/-! ## Basic facts about the mapping operations -/

section GenericLemmas

variable {K R : Type} [DecidableEq K] [DecidableEq R]

theorem flattenMap_cons (p : K × List R) (t : VulnMap K R) :
    flattenMap (p :: t) = p.2 ++ flattenMap t := by
  simp [flattenMap]

theorem mem_flattenMap {m : VulnMap K R} {x : R} :
    x ∈ flattenMap m ↔ ∃ p ∈ m, x ∈ p.2 := by
  simp only [flattenMap, List.mem_flatten, List.mem_map]
  constructor
  · rintro ⟨l, ⟨p, hp, rfl⟩, hx⟩
    exact ⟨p, hp, hx⟩
  · rintro ⟨p, hp, hx⟩
    exact ⟨p.2, ⟨p, hp, rfl⟩, hx⟩

theorem flattenMap_ensureKey (m : VulnMap K R) (k : K) :
    flattenMap (ensureKey m k) = flattenMap m := by
  unfold ensureKey
  split
  · rfl
  · simp [flattenMap]

theorem mem_flattenMap_appendVuln {m : VulnMap K R} {k : K} {v x : R}
    (h : x ∈ flattenMap (appendVuln m k v)) : x ∈ flattenMap m ∨ x = v := by
  rw [mem_flattenMap] at h
  obtain ⟨p, hp, hx⟩ := h
  rw [appendVuln, List.mem_map] at hp
  obtain ⟨q, hq, rfl⟩ := hp
  by_cases hk : q.1 = k
  · rw [if_pos hk] at hx
    rcases List.mem_append.mp hx with h2 | h2
    · exact Or.inl (mem_flattenMap.mpr ⟨q, hq, h2⟩)
    · exact Or.inr (List.mem_singleton.mp h2)
  · rw [if_neg hk] at hx
    exact Or.inl (mem_flattenMap.mpr ⟨q, hq, hx⟩)

theorem keys_appendVuln (m : VulnMap K R) (k : K) (v : R) :
    (appendVuln m k v).map Prod.fst = m.map Prod.fst := by
  induction m with
  | nil => rfl
  | cons p t ih =>
    simp only [appendVuln, List.map_cons] at ih ⊢
    rw [ih]
    split <;> rfl

theorem appendVuln_of_not_mem {m : VulnMap K R} {k : K} (v : R)
    (h : k ∉ m.map Prod.fst) : appendVuln m k v = m := by
  induction m with
  | nil => rfl
  | cons p t ih =>
    simp only [List.map_cons, List.mem_cons, not_or] at h
    simp only [appendVuln, List.map_cons] at ih ⊢
    rw [if_neg (fun he => h.1 he.symm), ih h.2]

theorem keys_ensureKey (m : VulnMap K R) (k : K) :
    (ensureKey m k).map Prod.fst = m.map Prod.fst ∨
      (ensureKey m k).map Prod.fst = m.map Prod.fst ++ [k] := by
  unfold ensureKey
  split
  · exact Or.inl rfl
  · right
    simp

theorem mem_keys_ensureKey (m : VulnMap K R) (k : K) :
    k ∈ (ensureKey m k).map Prod.fst := by
  unfold ensureKey
  split
  · rename_i ha
    rw [List.any_eq_true] at ha
    obtain ⟨p, hp, hd⟩ := ha
    exact List.mem_map.mpr ⟨p, hp, of_decide_eq_true hd⟩
  · simp

theorem keys_ensureKey_nodup {m : VulnMap K R} {k : K}
    (h : (m.map Prod.fst).Nodup) : ((ensureKey m k).map Prod.fst).Nodup := by
  unfold ensureKey
  split
  · exact h
  · rename_i ha
    have hk : k ∉ m.map Prod.fst := by
      intro hm
      obtain ⟨p, hp, he⟩ := List.mem_map.mp hm
      exact ha (List.any_eq_true.mpr ⟨p, hp, decide_eq_true he⟩)
    rw [List.map_append]
    exact List.nodup_append.mpr ⟨h, List.nodup_singleton k,
      fun a hal har => hk (by rwa [List.mem_singleton.mp har] at hal)⟩

theorem find?_key_of_mem {m : VulnMap K R} {p : K × List R}
    (hnd : (m.map Prod.fst).Nodup) (hp : p ∈ m) :
    m.find? (fun q => decide (q.1 = p.1)) = some p := by
  induction m with
  | nil => cases hp
  | cons q t ih =>
    rw [List.map_cons, List.nodup_cons] at hnd
    rcases List.mem_cons.mp hp with rfl | hpt
    · exact List.find?_cons_of_pos _ (decide_eq_true rfl)
    · have hne : q.1 ≠ p.1 := by
        intro he
        exact hnd.1 (he ▸ List.mem_map.mpr ⟨p, hpt, rfl⟩)
      rw [List.find?_cons_of_neg _ (by simpa using hne)]
      exact ih hnd.2 hpt

theorem length_flattenMap_appendVuln {m : VulnMap K R} {k : K} (v : R)
    (hnd : (m.map Prod.fst).Nodup) (hk : k ∈ m.map Prod.fst) :
    (flattenMap (appendVuln m k v)).length = (flattenMap m).length + 1 := by
  induction m with
  | nil => cases hk
  | cons p t ih =>
    rw [List.map_cons, List.nodup_cons] at hnd
    by_cases h : p.1 = k
    · have hkt : k ∉ t.map Prod.fst := h ▸ hnd.1
      simp only [appendVuln, List.map_cons, if_pos h]
      rw [show List.map (fun q => if q.1 = k then (q.1, q.2 ++ [v]) else q) t
          = appendVuln t k v from rfl, appendVuln_of_not_mem v hkt,
        flattenMap_cons, flattenMap_cons]
      simp [Nat.add_assoc, Nat.add_comm, Nat.add_left_comm]
    · have hkt : k ∈ t.map Prod.fst := by
        rcases List.mem_cons.mp hk with h2 | h2
        · exact absurd h2.symm h
        · exact h2
      simp only [appendVuln, List.map_cons, if_neg h]
      rw [show List.map (fun q => if q.1 = k then (q.1, q.2 ++ [v]) else q) t
          = appendVuln t k v from rfl, flattenMap_cons, flattenMap_cons,
        List.length_append, List.length_append, ih hnd.2 hkt]
      omega

theorem union_eq_right_of_subset {l1 l2 : List R} (h : ∀ a ∈ l1, a ∈ l2) :
    l1 ∪ l2 = l2 := by
  induction l1 with
  | nil => exact List.nil_union l2
  | cons a t ih =>
    rw [List.cons_union, ih (fun x hx => h x (List.mem_cons_of_mem a hx)),
      List.insert_of_mem (h a (List.mem_cons_self a t))]

theorem dedup_append_self (l : List R) : (l ++ l).dedup = l.dedup := by
  rw [List.dedup_append]
  exact union_eq_right_of_subset (fun a ha => List.mem_dedup.mpr ha)

/-- The invariant every constructed mapping satisfies: keys are unique
(Python dict keys) and every record sits in the bucket of its own package
name. -/
def WellFormedMap (keyOf : R → K) (m : VulnMap K R) : Prop :=
  (m.map Prod.fst).Nodup ∧ ∀ p ∈ m, ∀ x ∈ p.2, keyOf x = p.1

instance (keyOf : R → K) (m : VulnMap K R) : Decidable (WellFormedMap keyOf m) := by
  unfold WellFormedMap
  infer_instance

theorem containsVuln_of_mem_flatten {keyOf : R → K} {equiv : R → R → Bool}
    {m : VulnMap K R} {v : R} (hwf : WellFormedMap keyOf m)
    (hrefl : equiv v v = true) (hv : v ∈ flattenMap m) :
    containsVuln keyOf equiv m v = true := by
  rw [mem_flattenMap] at hv
  obtain ⟨p, hp, hvp⟩ := hv
  have hk : keyOf v = p.1 := hwf.2 p hp v hvp
  unfold containsVuln lookupKey
  rw [hk, find?_key_of_mem hwf.1 hp]
  exact List.any_eq_true.mpr ⟨v, hvp, hrefl⟩

theorem subLists_self_eq_none {keyOf : R → K} {equiv : R → R → Bool}
    {build : Nat → List R → VulnMap K R} {A : ScanVulnerabilityList K R}
    (hwf : WellFormedMap keyOf A.vulnerability_list)
    (hrefl : ∀ v, equiv v v = true) :
    subLists keyOf equiv build A A = none := by
  unfold subLists
  by_cases h : A.vulnerability_list = []
  · rw [if_pos h]
  · rw [if_neg h, if_neg h]
    have hmiss : (flattenMap A.vulnerability_list).filter
        (fun v => !(containsVuln keyOf equiv A.vulnerability_list v)) = [] := by
      rw [List.filter_eq_nil_iff]
      intro v hv
      rw [containsVuln_of_mem_flatten hwf (hrefl v) hv]
      exact fun hc => by cases hc
    simp [hmiss]

end GenericLemmas

/-! ## Lemmas about the sorted view -/

section SortedLemmas

variable {K R : Type} [DecidableEq K] [DecidableEq R]

theorem mem_flattenMap_get_sorted {nameOf : R → String} {kle : K → K → Prop}
    [DecidableRel kle] {m : VulnMap K R} {x : R}
    (h : x ∈ flattenMap (get_sorted_vulnerability_list nameOf kle m)) :
    x ∈ flattenMap m := by
  rw [mem_flattenMap] at h
  obtain ⟨p, hp, hx⟩ := h
  unfold get_sorted_vulnerability_list at hp
  rw [List.mem_insertionSort, List.mem_map] at hp
  obtain ⟨q, hq, rfl⟩ := hp
  simp only [List.mem_insertionSort, uniquify_list_of_dict, List.mem_dedup] at hx
  exact mem_flattenMap.mpr ⟨q, hq, hx⟩

end SortedLemmas

/-! ## Lemmas about the basic-scan constructors -/

namespace ECRBasicScanVulnerabilityList

theorem constructStep_mem_flatten {min : Nat}
    {m : VulnMap (Option String) BasicScanVulnerability} {w v : BasicScanVulnerability}
    (h : v ∈ flattenMap (constructStep min m w)) :
    v ∈ flattenMap m ∨ (v = w ∧ min ≤ w.severity.val) := by
  unfold constructStep at h
  by_cases hs : min ≤ w.severity.val
  · rw [if_pos hs] at h
    rcases mem_flattenMap_appendVuln h with h2 | rfl
    · rw [flattenMap_ensureKey] at h2
      exact Or.inl h2
    · exact Or.inr ⟨rfl, hs⟩
  · rw [if_neg hs, flattenMap_ensureKey] at h
    exact Or.inl h

theorem construct_mem_flatten {min : Nat} {l : List BasicScanVulnerability}
    {m0 : VulnMap (Option String) BasicScanVulnerability} {v : BasicScanVulnerability}
    (h : v ∈ flattenMap
      (construct_allowlist_from_allowlist_formatted_vulnerabilities min m0 l)) :
    v ∈ flattenMap m0 ∨ min ≤ v.severity.val := by
  induction l generalizing m0 with
  | nil => exact Or.inl h
  | cons w t ih =>
    rw [construct_allowlist_from_allowlist_formatted_vulnerabilities,
      List.foldl_cons] at h
    rcases ih h with h2 | h2
    · rcases constructStep_mem_flatten h2 with h3 | ⟨rfl, h3⟩
      · exact Or.inl h3
      · exact Or.inr h3
    · exact Or.inr h2

theorem fileStep_mem_flatten {min : Nat}
    {m : VulnMap (Option String) BasicScanVulnerability} {k : String}
    {w v : BasicScanVulnerability} (h : v ∈ flattenMap (fileStep min m k w)) :
    v ∈ flattenMap m ∨ (v = w ∧ min ≤ w.severity.val) := by
  unfold fileStep at h
  by_cases hs : min ≤ w.severity.val
  · rw [if_pos hs] at h
    rcases mem_flattenMap_appendVuln h with h2 | rfl
    · rw [flattenMap_ensureKey] at h2
      exact Or.inl h2
    · exact Or.inr ⟨rfl, hs⟩
  · rw [if_neg hs] at h
    exact Or.inl h

theorem fileRow_mem_flatten {min : Nat} {k : String}
    {l : List BasicScanVulnerability}
    {m0 : VulnMap (Option String) BasicScanVulnerability} {v : BasicScanVulnerability}
    (h : v ∈ flattenMap (l.foldl (fun m2 w => fileStep min m2 k w) m0)) :
    v ∈ flattenMap m0 ∨ min ≤ v.severity.val := by
  induction l generalizing m0 with
  | nil => exact Or.inl h
  | cons w t ih =>
    rw [List.foldl_cons] at h
    rcases ih h with h2 | h2
    · rcases fileStep_mem_flatten h2 with h3 | ⟨rfl, h3⟩
      · exact Or.inl h3
      · exact Or.inr h3
    · exact Or.inr h2

theorem construct_file_mem_flatten {min : Nat}
    {file : List (String × List BasicScanVulnerability)}
    {m0 : VulnMap (Option String) BasicScanVulnerability} {v : BasicScanVulnerability}
    (h : v ∈ flattenMap (construct_allowlist_from_file min m0 file)) :
    v ∈ flattenMap m0 ∨ min ≤ v.severity.val := by
  induction file generalizing m0 with
  | nil => exact Or.inl h
  | cons row t ih =>
    rw [construct_allowlist_from_file, List.foldl_cons] at h
    rcases ih h with h2 | h2
    · exact fileRow_mem_flatten h2
    · exact Or.inr h2

theorem constructStep_keys_nodup {min : Nat}
    {m : VulnMap (Option String) BasicScanVulnerability} {w : BasicScanVulnerability}
    (h : (m.map Prod.fst).Nodup) :
    ((constructStep min m w).map Prod.fst).Nodup := by
  unfold constructStep
  by_cases hs : min ≤ w.severity.val
  · rw [if_pos hs, keys_appendVuln]
    exact keys_ensureKey_nodup h
  · rw [if_neg hs]
    exact keys_ensureKey_nodup h

theorem constructStep_flatten_length {min : Nat}
    {m : VulnMap (Option String) BasicScanVulnerability} {w : BasicScanVulnerability}
    (h : (m.map Prod.fst).Nodup) :
    (flattenMap (constructStep min m w)).length =
      (flattenMap m).length + (if min ≤ w.severity.val then 1 else 0) := by
  unfold constructStep
  by_cases hs : min ≤ w.severity.val
  · rw [if_pos hs, if_pos hs,
      length_flattenMap_appendVuln w (keys_ensureKey_nodup h) (mem_keys_ensureKey m _),
      flattenMap_ensureKey]
  · rw [if_neg hs, if_neg hs, flattenMap_ensureKey, Nat.add_zero]

theorem construct_flatten_length {min : Nat} {l : List BasicScanVulnerability}
    {m0 : VulnMap (Option String) BasicScanVulnerability}
    (h : (m0.map Prod.fst).Nodup) :
    (flattenMap
        (construct_allowlist_from_allowlist_formatted_vulnerabilities min m0 l)).length =
      (flattenMap m0).length +
        (l.filter (fun v => decide (min ≤ v.severity.val))).length := by
  induction l generalizing m0 with
  | nil => simp [construct_allowlist_from_allowlist_formatted_vulnerabilities]
  | cons w t ih =>
    rw [construct_allowlist_from_allowlist_formatted_vulnerabilities, List.foldl_cons]
    rw [show t.foldl (constructStep min) (constructStep min m0 w)
        = construct_allowlist_from_allowlist_formatted_vulnerabilities min
            (constructStep min m0 w) t from rfl]
    rw [ih (constructStep_keys_nodup h), constructStep_flatten_length h,
      List.filter_cons]
    by_cases hs : min ≤ w.severity.val <;> simp [hs] <;> omega

end ECRBasicScanVulnerabilityList

/-! ## Lemmas about the enhanced-scan constructors -/

namespace ECREnhancedScanVulnerabilityList

theorem enh_constructStep_mem_flatten {min : Nat}
    {m : VulnMap String AllowListFormatVulnerability}
    {w v : AllowListFormatVulnerability}
    (h : v ∈ flattenMap (constructStep min m w)) :
    v ∈ flattenMap m ∨ (v = w ∧ min ≤ w.cvss_v3_severity.val) := by
  unfold constructStep at h
  by_cases hs : w.cvss_v3_severity.val < min
  · rw [if_pos hs] at h
    exact Or.inl h
  · rw [if_neg hs] at h
    rcases mem_flattenMap_appendVuln h with h2 | rfl
    · rw [flattenMap_ensureKey] at h2
      exact Or.inl h2
    · exact Or.inr ⟨rfl, Nat.le_of_not_lt hs⟩

theorem enh_construct_mem_flatten {min : Nat} {l : List AllowListFormatVulnerability}
    {m0 : VulnMap String AllowListFormatVulnerability} {v : AllowListFormatVulnerability}
    (h : v ∈ flattenMap
      (construct_allowlist_from_allowlist_formatted_vulnerabilities min m0 l)) :
    v ∈ flattenMap m0 ∨ min ≤ v.cvss_v3_severity.val := by
  induction l generalizing m0 with
  | nil => exact Or.inl h
  | cons w t ih =>
    rw [construct_allowlist_from_allowlist_formatted_vulnerabilities,
      List.foldl_cons] at h
    rcases ih h with h2 | h2
    · rcases enh_constructStep_mem_flatten h2 with h3 | ⟨rfl, h3⟩
      · exact Or.inl h3
      · exact Or.inr h3
    · exact Or.inr h2

theorem enh_construct_file_mem_flatten {min : Nat}
    {file : List (String × List AllowListFormatVulnerability)}
    {m0 : VulnMap String AllowListFormatVulnerability} {v : AllowListFormatVulnerability}
    (h : v ∈ flattenMap (construct_allowlist_from_file min m0 file)) :
    v ∈ flattenMap m0 ∨ min ≤ v.cvss_v3_severity.val := by
  induction file generalizing m0 with
  | nil => exact Or.inl h
  | cons row t ih =>
    rw [construct_allowlist_from_file, List.foldl_cons] at h
    rcases ih h with h2 | h2
    · exact enh_construct_mem_flatten h2
    · exact Or.inr h2

theorem ecrPackageStep_mem_flatten {min : Nat} {f : EcrEnhancedFinding}
    {m : VulnMap String AllowListFormatVulnerability} {pkg : RawVulnerablePackage}
    {v : AllowListFormatVulnerability}
    (h : v ∈ flattenMap (ecrPackageStep min f m pkg)) :
    v ∈ flattenMap m ∨ min ≤ v.cvss_v3_severity.val := by
  unfold ecrPackageStep at h
  by_cases hs : (AllowListFormatVulnerability.fromEcrFinding f pkg).cvss_v3_severity.val < min
  · rw [if_pos hs] at h
    exact Or.inl h
  · rw [if_neg hs] at h
    rcases mem_flattenMap_appendVuln h with h2 | rfl
    · rw [flattenMap_ensureKey] at h2
      exact Or.inl h2
    · exact Or.inr (Nat.le_of_not_lt hs)

theorem ecrFindingStep_mem_flatten {min : Nat} {f : EcrEnhancedFinding}
    {m0 : VulnMap String AllowListFormatVulnerability} {v : AllowListFormatVulnerability}
    (h : v ∈ flattenMap (ecrFindingStep min m0 f)) :
    v ∈ flattenMap m0 ∨ min ≤ v.cvss_v3_severity.val := by
  unfold ecrFindingStep at h
  generalize hl : f.packageVulnerabilityDetails.vulnerablePackages = pkgs at h
  clear hl
  induction pkgs generalizing m0 with
  | nil => exact Or.inl h
  | cons pkg t ih =>
    rw [List.foldl_cons] at h
    rcases ih h with h2 | h2
    · exact ecrPackageStep_mem_flatten h2
    · exact Or.inr h2

theorem ecrFold_mem_flatten {min : Nat} {l : List EcrEnhancedFinding}
    {m0 : VulnMap String AllowListFormatVulnerability} {v : AllowListFormatVulnerability}
    (h : v ∈ flattenMap (l.foldl (ecrFindingStep min) m0)) :
    v ∈ flattenMap m0 ∨ min ≤ v.cvss_v3_severity.val := by
  induction l generalizing m0 with
  | nil => exact Or.inl h
  | cons f t ih =>
    rw [List.foldl_cons] at h
    rcases ih h with h2 | h2
    · exact ecrFindingStep_mem_flatten h2
    · exact Or.inr h2

theorem construct_ecr_mem_flatten {min : Nat} {l : List EcrEnhancedFinding}
    {m0 : VulnMap String AllowListFormatVulnerability} {v : AllowListFormatVulnerability}
    (h : v ∈ flattenMap (construct_allowlist_from_ecr_scan_result min m0 l)) :
    v ∈ flattenMap m0 ∨ min ≤ v.cvss_v3_severity.val := by
  rw [construct_allowlist_from_ecr_scan_result, get_sorted] at h
  exact ecrFold_mem_flatten (mem_flattenMap_get_sorted h)

theorem enh_constructStep_keys_nodup {min : Nat}
    {m : VulnMap String AllowListFormatVulnerability} {w : AllowListFormatVulnerability}
    (h : (m.map Prod.fst).Nodup) :
    ((constructStep min m w).map Prod.fst).Nodup := by
  unfold constructStep
  by_cases hs : w.cvss_v3_severity.val < min
  · rw [if_pos hs]
    exact h
  · rw [if_neg hs, keys_appendVuln]
    exact keys_ensureKey_nodup h

theorem enh_constructStep_flatten_length {min : Nat}
    {m : VulnMap String AllowListFormatVulnerability} {w : AllowListFormatVulnerability}
    (h : (m.map Prod.fst).Nodup) :
    (flattenMap (constructStep min m w)).length =
      (flattenMap m).length + (if min ≤ w.cvss_v3_severity.val then 1 else 0) := by
  unfold constructStep
  by_cases hs : w.cvss_v3_severity.val < min
  · rw [if_pos hs, if_neg (Nat.not_le_of_lt hs), Nat.add_zero]
  · rw [if_neg hs, if_pos (Nat.le_of_not_lt hs),
      length_flattenMap_appendVuln w (keys_ensureKey_nodup h) (mem_keys_ensureKey m _),
      flattenMap_ensureKey]

theorem enh_construct_flatten_length {min : Nat} {l : List AllowListFormatVulnerability}
    {m0 : VulnMap String AllowListFormatVulnerability}
    (h : (m0.map Prod.fst).Nodup) :
    (flattenMap
        (construct_allowlist_from_allowlist_formatted_vulnerabilities min m0 l)).length =
      (flattenMap m0).length +
        (l.filter (fun v => decide (min ≤ v.cvss_v3_severity.val))).length := by
  induction l generalizing m0 with
  | nil => simp [construct_allowlist_from_allowlist_formatted_vulnerabilities]
  | cons w t ih =>
    rw [construct_allowlist_from_allowlist_formatted_vulnerabilities, List.foldl_cons]
    rw [show t.foldl (constructStep min) (constructStep min m0 w)
        = construct_allowlist_from_allowlist_formatted_vulnerabilities min
            (constructStep min m0 w) t from rfl]
    rw [ih (enh_constructStep_keys_nodup h), enh_constructStep_flatten_length h,
      List.filter_cons]
    by_cases hs : min ≤ w.cvss_v3_severity.val <;> simp [hs] <;> omega

end ECREnhancedScanVulnerabilityList

/-! ## The equivalence predicates -/

namespace ECRBasicScanVulnerabilityList

theorem are_vulnerabilities_equivalent_iff (v1 v2 : BasicScanVulnerability) :
    are_vulnerabilities_equivalent v1 v2 = true ↔
      (v1.name = v2.name ∧ v1.severity = v2.severity ∧
        ∀ a ∈ v1.attributes, a.key ≠ "package_version" → a ∈ v2.attributes) := by
  unfold are_vulnerabilities_equivalent
  by_cases h : v1.name = v2.name ∧ v1.severity = v2.severity
  · rw [if_pos h, List.all_eq_true]
    constructor
    · intro hall
      refine ⟨h.1, h.2, fun a ha hk => ?_⟩
      exact of_decide_eq_true (hall a (List.mem_filter.mpr ⟨ha, by simp [hk]⟩))
    · rintro ⟨-, -, hsub⟩ a ha
      have h2 := List.mem_filter.mp ha
      refine decide_eq_true (hsub a h2.1 ?_)
      simpa using h2.2
  · rw [if_neg h]
    constructor
    · intro hc
      cases hc
    · rintro ⟨h1, h2, -⟩
      exact absurd ⟨h1, h2⟩ h

theorem are_vulnerabilities_equivalent_refl (v : BasicScanVulnerability) :
    are_vulnerabilities_equivalent v v = true :=
  (are_vulnerabilities_equivalent_iff v v).mpr ⟨rfl, rfl, fun a ha _ => ha⟩

end ECRBasicScanVulnerabilityList

namespace ECREnhancedScanVulnerabilityList

theorem enh_are_vulnerabilities_equivalent_refl (v : AllowListFormatVulnerability) :
    are_vulnerabilities_equivalent v v = true := by
  have h1 : package_details_equal_ignoring_version v.package_details
      v.package_details = true := by
    unfold package_details_equal_ignoring_version
    simp
  rw [are_vulnerabilities_equivalent, if_pos h1]
  unfold equal_ignoring_package_details
  simp

end ECREnhancedScanVulnerabilityList

/-! ## Helper facts for below-threshold construction -/

section EmptyBuckets

variable {K R : Type} [DecidableEq K] [DecidableEq R]

theorem ensureKey_ne_nil (m : VulnMap K R) (k : K) : ensureKey m k ≠ [] := by
  unfold ensureKey
  split
  · rename_i h
    intro hm
    rw [hm] at h
    cases h
  · exact fun hm => by cases m <;> cases hm

theorem appendVuln_ne_nil {m : VulnMap K R} (k : K) (v : R) (h : m ≠ []) :
    appendVuln m k v ≠ [] := by
  unfold appendVuln
  intro hm
  exact h (List.map_eq_nil_iff.mp hm)

theorem mem_ensureKey {m : VulnMap K R} {k : K} {p : K × List R}
    (h : p ∈ ensureKey m k) : p ∈ m ∨ p = (k, []) := by
  unfold ensureKey at h
  split at h
  · exact Or.inl h
  · rcases List.mem_append.mp h with h2 | h2
    · exact Or.inl h2
    · exact Or.inr (List.mem_singleton.mp h2)

theorem keys_subset_ensureKey (m : VulnMap K R) (k j : K)
    (h : j ∈ m.map Prod.fst) : j ∈ (ensureKey m k).map Prod.fst := by
  unfold ensureKey
  split
  · exact h
  · rw [List.map_append]
    exact List.mem_append_left _ h

end EmptyBuckets

namespace ECRBasicScanVulnerabilityList

theorem constructStep_ne_nil (min : Nat)
    (m : VulnMap (Option String) BasicScanVulnerability)
    (v : BasicScanVulnerability) : constructStep min m v ≠ [] := by
  unfold constructStep
  by_cases hs : min ≤ v.severity.val
  · rw [if_pos hs]
    exact appendVuln_ne_nil _ _ (ensureKey_ne_nil m _)
  · rw [if_neg hs]
    exact ensureKey_ne_nil m _

theorem construct_ne_nil (min : Nat)
    {m0 : VulnMap (Option String) BasicScanVulnerability}
    {l : List BasicScanVulnerability} (h : m0 ≠ [] ∨ l ≠ []) :
    construct_allowlist_from_allowlist_formatted_vulnerabilities min m0 l ≠ [] := by
  induction l generalizing m0 with
  | nil =>
    rcases h with h | h
    · exact h
    · exact absurd rfl h
  | cons w t ih =>
    rw [construct_allowlist_from_allowlist_formatted_vulnerabilities, List.foldl_cons]
    exact ih (Or.inl (constructStep_ne_nil min m0 w))

theorem construct_buckets_empty {min : Nat}
    {m0 : VulnMap (Option String) BasicScanVulnerability}
    {l : List BasicScanVulnerability}
    (hm0 : ∀ p ∈ m0, p.2 = ([] : List BasicScanVulnerability))
    (hlow : ∀ v ∈ l, v.severity.val < min) :
    ∀ p ∈ construct_allowlist_from_allowlist_formatted_vulnerabilities min m0 l,
      p.2 = [] := by
  induction l generalizing m0 with
  | nil => exact hm0
  | cons w t ih =>
    rw [construct_allowlist_from_allowlist_formatted_vulnerabilities, List.foldl_cons]
    have hw : ¬ min ≤ w.severity.val :=
      Nat.not_le_of_lt (hlow w (List.mem_cons_self w t))
    have hstep : constructStep min m0 w = ensureKey m0 (get_package_name w) := by
      unfold constructStep
      rw [if_neg hw]
    rw [hstep]
    refine ih ?_ (fun v hv => hlow v (List.mem_cons_of_mem w hv))
    intro p hp
    rcases mem_ensureKey hp with h2 | rfl
    · exact hm0 p h2
    · rfl

theorem construct_keys_mono {min : Nat} {j : Option String}
    {m0 : VulnMap (Option String) BasicScanVulnerability}
    {l : List BasicScanVulnerability} (h : j ∈ m0.map Prod.fst) :
    j ∈ (construct_allowlist_from_allowlist_formatted_vulnerabilities
        min m0 l).map Prod.fst := by
  induction l generalizing m0 with
  | nil => exact h
  | cons w t ih =>
    rw [construct_allowlist_from_allowlist_formatted_vulnerabilities, List.foldl_cons]
    refine ih ?_
    unfold constructStep
    by_cases hs : min ≤ w.severity.val
    · rw [if_pos hs, keys_appendVuln]
      exact keys_subset_ensureKey m0 _ j h
    · rw [if_neg hs]
      exact keys_subset_ensureKey m0 _ j h

theorem construct_key_mem {min : Nat}
    {m0 : VulnMap (Option String) BasicScanVulnerability}
    {l : List BasicScanVulnerability} :
    ∀ v ∈ l, get_package_name v ∈
      (construct_allowlist_from_allowlist_formatted_vulnerabilities
        min m0 l).map Prod.fst := by
  induction l generalizing m0 with
  | nil => intro v hv; cases hv
  | cons w t ih =>
    intro v hv
    rw [construct_allowlist_from_allowlist_formatted_vulnerabilities, List.foldl_cons]
    rcases List.mem_cons.mp hv with rfl | hvt
    · refine construct_keys_mono ?_
      unfold constructStep
      by_cases hs : min ≤ v.severity.val
      · rw [if_pos hs, keys_appendVuln]
        exact mem_keys_ensureKey m0 _
      · rw [if_neg hs]
        exact mem_keys_ensureKey m0 _
    · exact ih v hvt

end ECRBasicScanVulnerabilityList

/-! ## Helper facts for the ordered file form and the CVSS scores -/

namespace ECRBasicScanVulnerabilityList

theorem keyLe_total : ∀ a b, keyLe a b ∨ keyLe b a
  | none, _ => Or.inl trivial
  | some _, none => Or.inr trivial
  | some x, some y => le_total x y

theorem keyLe_trans : ∀ a b c, keyLe a b → keyLe b c → keyLe a c
  | none, _, _, _, _ => trivial
  | some _, none, _, h, _ => h.elim
  | some _, some _, none, _, h2 => h2.elim
  | some _, some _, some _, h1, h2 => le_trans h1 h2

end ECRBasicScanVulnerabilityList

theorem get_cvss_score_eq_zero {pvd : PackageVulnerabilityDetails} {sv : String}
    (h : ∀ c ∈ pvd.cvss, c.version ≠ sv) : get_cvss_score pvd sv = 0 := by
  unfold get_cvss_score
  rw [List.find?_eq_none.mpr (fun c hc => by simpa using h c hc)]

theorem mkRat_one_ten_eq : mkRat 1 10 = (0.1 : ℚ) := by
  norm_num [mkRat]

/-! ## The claims -/

/-- C1: for every pair of basic-scan records, are_vulnerabilities_equivalent
returns True iff the names match, the severities match, and every
attribute of the first record whose key is not package_version is an
element of the second record's attribute list (asymmetric containment:
the second record may carry extra attributes). -/
theorem basic_equivalence_characterization (v1 v2 : BasicScanVulnerability) :
    ECRBasicScanVulnerabilityList.are_vulnerabilities_equivalent v1 v2 = true ↔
      (v1.name = v2.name ∧ v1.severity = v2.severity ∧
        ∀ a ∈ v1.attributes, a.key ≠ "package_version" → a ∈ v2.attributes) :=
  ECRBasicScanVulnerabilityList.are_vulnerabilities_equivalent_iff v1 v2

/-- C2: for every well-formed collection (unique keys, records filed under
their own package name), the difference of the collection with itself is
the empty-result sentinel None, for both the basic-scan and the
enhanced-scan format (the equivalence predicates are reflexive). -/
theorem self_difference_is_empty_sentinel
    (A : ECRBasicScanVulnerabilityList.T) (B : ECREnhancedScanVulnerabilityList.T)
    (hA : WellFormedMap ECRBasicScanVulnerabilityList.get_package_name
      A.vulnerability_list)
    (hB : WellFormedMap ECREnhancedScanVulnerabilityList.get_package_name
      B.vulnerability_list) :
    ECRBasicScanVulnerabilityList.sub A A = none ∧
    ECREnhancedScanVulnerabilityList.sub B B = none :=
  ⟨subLists_self_eq_none hA
      ECRBasicScanVulnerabilityList.are_vulnerabilities_equivalent_refl,
   subLists_self_eq_none hB
      ECREnhancedScanVulnerabilityList.enh_are_vulnerabilities_equivalent_refl⟩

/-- Witness for C2 at a concrete basic and a concrete enhanced collection. -/
theorem self_difference_check :
    ECRBasicScanVulnerabilityList.sub basicSampleList basicSampleList = none ∧
    ECREnhancedScanVulnerabilityList.sub enhancedSampleList enhancedSampleList = none :=
  self_difference_is_empty_sentinel basicSampleList enhancedSampleList
    (by decide) (by decide)

/-- C3: the derived cvss_v3_severity comes from the CVSS v3.1 base score
by the fixed thresholds 9.0 / 7.0 / 4.0 / 0.1; a missing v3.1 entry gives
score 0.0 and severity UNDEFINED; the boundary values 9.5, 7.0, 4.0, 0.1
and 0.0 map exactly to CRITICAL, HIGH, MEDIUM, LOW and UNDEFINED. -/
theorem cvss_severity_thresholds (pvd : PackageVulnerabilityDetails)
    (h31 : ∀ c ∈ pvd.cvss, c.version ≠ "3.1") (s : ℚ) :
    get_cvss_score pvd "3.1" = 0 ∧
    get_cvss_v3_severity (get_cvss_score pvd "3.1") = CVESeverity.UNDEFINED ∧
    (9 ≤ s → get_cvss_v3_severity s = CVESeverity.CRITICAL) ∧
    (7 ≤ s → s < 9 → get_cvss_v3_severity s = CVESeverity.HIGH) ∧
    (4 ≤ s → s < 7 → get_cvss_v3_severity s = CVESeverity.MEDIUM) ∧
    ((0.1 : ℚ) ≤ s → s < 4 → get_cvss_v3_severity s = CVESeverity.LOW) ∧
    (s < (0.1 : ℚ) → get_cvss_v3_severity s = CVESeverity.UNDEFINED) ∧
    get_cvss_v3_severity (9.5 : ℚ) = CVESeverity.CRITICAL ∧
    get_cvss_v3_severity 7 = CVESeverity.HIGH ∧
    get_cvss_v3_severity 4 = CVESeverity.MEDIUM ∧
    get_cvss_v3_severity (0.1 : ℚ) = CVESeverity.LOW ∧
    get_cvss_v3_severity 0 = CVESeverity.UNDEFINED ∧
    (∀ (f : EcrEnhancedFinding) (pkg : RawVulnerablePackage),
      (AllowListFormatVulnerability.fromEcrFinding f pkg).cvss_v3_severity =
        get_cvss_v3_severity (get_cvss_score f.packageVulnerabilityDetails "3.1")) := by
  have hz := get_cvss_score_eq_zero h31
  refine ⟨hz, by rw [hz]; decide, ?_, ?_, ?_, ?_, ?_, ?_, by decide, by decide, ?_,
    by decide, fun f pkg => rfl⟩
  · intro h9
    unfold get_cvss_v3_severity
    rw [if_pos h9]
  · intro h7 h9
    unfold get_cvss_v3_severity
    rw [if_neg (not_le.mpr h9), if_pos h7]
  · intro h4 h7
    unfold get_cvss_v3_severity
    rw [if_neg (not_le.mpr (by linarith)), if_neg (not_le.mpr h7), if_pos h4]
  · intro h01 h4
    unfold get_cvss_v3_severity
    rw [if_neg (not_le.mpr (by linarith)), if_neg (not_le.mpr (by linarith)),
      if_neg (not_le.mpr h4), if_pos (by rw [mkRat_one_ten_eq]; exact h01)]
  · intro h01
    unfold get_cvss_v3_severity
    have h01q : (0.1 : ℚ) ≤ 4 := by norm_num
    have h01r : (0.1 : ℚ) ≤ 7 := by norm_num
    have h01s : (0.1 : ℚ) ≤ 9 := by norm_num
    rw [if_neg (not_le.mpr (by linarith)), if_neg (not_le.mpr (by linarith)),
      if_neg (not_le.mpr (by linarith)),
      if_neg (not_le.mpr (by rw [mkRat_one_ten_eq]; exact h01))]
  · unfold get_cvss_v3_severity
    rw [if_pos (by norm_num : (9 : ℚ) ≤ 9.5)]
  · unfold get_cvss_v3_severity
    rw [if_neg (by norm_num : ¬ (9 : ℚ) ≤ 0.1),
      if_neg (by norm_num : ¬ (7 : ℚ) ≤ 0.1),
      if_neg (by norm_num : ¬ (4 : ℚ) ≤ 0.1),
      if_pos (le_of_eq mkRat_one_ten_eq)]

/-- Witness for C3 at a concrete cvss list without a v3.1 entry and at the
concrete score 5. -/
theorem cvss_thresholds_check :
    get_cvss_score findingNo31.packageVulnerabilityDetails "3.1" = 0 ∧
    get_cvss_v3_severity 5 = CVESeverity.MEDIUM := by
  have h := cvss_severity_thresholds findingNo31.packageVulnerabilityDetails
    (by decide) 5
  exact ⟨h.1, h.2.2.2.2.1 (by norm_num) (by norm_num)⟩

/-- C4: changing only the observed package version (the value of the
package_version attribute for basic-scan records; the
package_details.version field for enhanced-scan records) never breaks
equivalence, under both predicates. -/
theorem version_change_preserves_equivalence (v : BasicScanVulnerability)
    (newValue : String) (w : AllowListFormatVulnerability) (newVersion : String) :
    ECRBasicScanVulnerabilityList.are_vulnerabilities_equivalent v
      { v with attributes := v.attributes.map (setVersionAttribute newValue) } = true ∧
    ECREnhancedScanVulnerabilityList.are_vulnerabilities_equivalent w
      { w with package_details :=
          { w.package_details with version := newVersion } } = true := by
  constructor
  · rw [ECRBasicScanVulnerabilityList.are_vulnerabilities_equivalent_iff]
    refine ⟨rfl, rfl, fun a ha hk => ?_⟩
    exact List.mem_map.mpr ⟨a, ha, by rw [setVersionAttribute, if_neg hk]⟩
  · have hpd : ECREnhancedScanVulnerabilityList.package_details_equal_ignoring_version
        w.package_details
        ({ w with package_details :=
            { w.package_details with version := newVersion } }).package_details = true := by
      unfold ECREnhancedScanVulnerabilityList.package_details_equal_ignoring_version
      simp
    rw [ECREnhancedScanVulnerabilityList.are_vulnerabilities_equivalent, if_pos hpd]
    unfold ECREnhancedScanVulnerabilityList.equal_ignoring_package_details
    simp

/-- C5: no constructor (from an ECR scan result, from an
allowlist-formatted list, or from a file) ever inserts a record whose
severity is below the collection's threshold, for either format; and the
HIGH-threshold construction from one MEDIUM and one CRITICAL record
yields exactly the CRITICAL record. -/
theorem severity_threshold_filtering :
    (∀ (min : Nat) (l : List BasicScanVulnerability) (v : BasicScanVulnerability),
      v ∈ flattenMap
        (ECRBasicScanVulnerabilityList.construct_allowlist_from_allowlist_formatted_vulnerabilities
          min [] l) → min ≤ v.severity.val) ∧
    (∀ (min : Nat) (file : List (String × List BasicScanVulnerability))
        (v : BasicScanVulnerability),
      v ∈ flattenMap
        (ECRBasicScanVulnerabilityList.construct_allowlist_from_file min [] file) →
        min ≤ v.severity.val) ∧
    (∀ (min : Nat) (l : List AllowListFormatVulnerability)
        (v : AllowListFormatVulnerability),
      v ∈ flattenMap
        (ECREnhancedScanVulnerabilityList.construct_allowlist_from_allowlist_formatted_vulnerabilities
          min [] l) → min ≤ v.cvss_v3_severity.val) ∧
    (∀ (min : Nat) (file : List (String × List AllowListFormatVulnerability))
        (v : AllowListFormatVulnerability),
      v ∈ flattenMap
        (ECREnhancedScanVulnerabilityList.construct_allowlist_from_file min [] file) →
        min ≤ v.cvss_v3_severity.val) ∧
    (∀ (min : Nat) (l : List EcrEnhancedFinding) (v : AllowListFormatVulnerability),
      v ∈ flattenMap
        (ECREnhancedScanVulnerabilityList.construct_allowlist_from_ecr_scan_result
          min [] l) → min ≤ v.cvss_v3_severity.val) ∧
    flattenMap
      (ECRBasicScanVulnerabilityList.construct_allowlist_from_allowlist_formatted_vulnerabilities
        CVESeverity.HIGH.val [] [vMedSample, vCritSample]) = [vCritSample] ∧
    flattenMap
      (ECREnhancedScanVulnerabilityList.construct_allowlist_from_allowlist_formatted_vulnerabilities
        CVESeverity.HIGH.val [] [wMedSample, wCritSample]) = [wCritSample] := by
  have hnil : ∀ (R : Type) (x : R), x ∈ flattenMap ([] : VulnMap (Option String) R) → False := by
    intro R x hx
    simpa [flattenMap] using hx
  have hnilS : ∀ (R : Type) (x : R), x ∈ flattenMap ([] : VulnMap String R) → False := by
    intro R x hx
    simpa [flattenMap] using hx
  refine ⟨?_, ?_, ?_, ?_, ?_, by decide, by decide⟩
  · intro min l v h
    exact (ECRBasicScanVulnerabilityList.construct_mem_flatten h).resolve_left
      (fun hx => hnil _ v hx)
  · intro min file v h
    exact (ECRBasicScanVulnerabilityList.construct_file_mem_flatten h).resolve_left
      (fun hx => hnil _ v hx)
  · intro min l v h
    exact (ECREnhancedScanVulnerabilityList.enh_construct_mem_flatten h).resolve_left
      (fun hx => hnilS _ v hx)
  · intro min file v h
    exact (ECREnhancedScanVulnerabilityList.enh_construct_file_mem_flatten h).resolve_left
      (fun hx => hnilS _ v hx)
  · intro min l v h
    exact (ECREnhancedScanVulnerabilityList.construct_ecr_mem_flatten h).resolve_left
      (fun hx => hnilS _ v hx)

/-- C6: the fixable-by-upgrade partition is the union of
current − upgraded and allowlist − upgraded, degenerating to whichever
difference is non-sentinel when the other is the sentinel; the
non-fixable partition is upgraded − allowlist; and in the scenario
current = pkgA: CVE-1 MEDIUM, upgraded = empty, allowlist = empty, the
partitions are (pkgA: CVE-1, empty). -/
theorem reconciliation_partitions_spec
    (a c u : ECRBasicScanVulnerabilityList.T) :
    (ECRBasicScanVulnerabilityList.sub c u = none →
      get_vulnerabilites_fixable_by_upgrade a c u =
        ECRBasicScanVulnerabilityList.sub a u) ∧
    (ECRBasicScanVulnerabilityList.sub a u = none →
      get_vulnerabilites_fixable_by_upgrade a c u =
        ECRBasicScanVulnerabilityList.sub c u) ∧
    (∀ x y, ECRBasicScanVulnerabilityList.sub c u = some x →
      ECRBasicScanVulnerabilityList.sub a u = some y →
      get_vulnerabilites_fixable_by_upgrade a c u =
        ECRBasicScanVulnerabilityList.add x y) ∧
    conduct_failure_routine_partitions emptyBasicList currentScanSample emptyBasicList =
      (some currentScanSample, none) ∧
    currentScanSample.vulnerability_list = [(some "pkgA", [cve1Sample])] := by
  refine ⟨?_, ?_, ?_, by decide, by decide⟩
  · intro h
    simp only [get_vulnerabilites_fixable_by_upgrade]
    rw [h]
    cases hau : ECRBasicScanVulnerabilityList.sub a u <;> rfl
  · intro h
    simp only [get_vulnerabilites_fixable_by_upgrade]
    rw [h]
    cases hcu : ECRBasicScanVulnerabilityList.sub c u <;> rfl
  · intro x y hx hy
    simp only [get_vulnerabilites_fixable_by_upgrade]
    rw [hx, hy]

/-- C7 counterexample: a collection legitimately built by the constructor
from an input repeating one record has a flattened cardinality of 2,
while the union with itself flattens to a single record — the union also
collapses duplicates that were inside the operand, so the cardinality is
not always preserved. -/
theorem union_self_cardinality_counterexample :
    (flattenMap duplicatedBasicList.vulnerability_list).length = 2 ∧
    (ECRBasicScanVulnerabilityList.add duplicatedBasicList duplicatedBasicList).map
      (fun u => (flattenMap u.vulnerability_list).length) = some 1 := by
  decide

/-- C7 (amended): for every collection whose flattened record list is free
of exact duplicates and whose records all meet its threshold, the union
with itself has the same flattened cardinality, for both formats (the
sentinel counting as zero records). -/
theorem union_self_preserves_cardinality_of_duplicate_free
    (A : ECRBasicScanVulnerabilityList.T) (B : ECREnhancedScanVulnerabilityList.T)
    (hA1 : (flattenMap A.vulnerability_list).Nodup)
    (hA2 : ∀ v ∈ flattenMap A.vulnerability_list,
      A.minimum_severity ≤ v.severity.val)
    (hB1 : (flattenMap B.vulnerability_list).Nodup)
    (hB2 : ∀ v ∈ flattenMap B.vulnerability_list,
      B.minimum_severity ≤ v.cvss_v3_severity.val) :
    result_flattened_length (ECRBasicScanVulnerabilityList.add A A) =
      (flattenMap A.vulnerability_list).length ∧
    result_flattened_length (ECREnhancedScanVulnerabilityList.add B B) =
      (flattenMap B.vulnerability_list).length := by
  constructor
  · rw [ECRBasicScanVulnerabilityList.add, addLists]
    by_cases h : flattenMap A.vulnerability_list = []
    · simp [h, result_flattened_length]
    · rw [if_neg (by simp [h]), result_flattened_length]
      rw [uniquify_list_of_dict, dedup_append_self, List.Nodup.dedup hA1]
      rw [ECRBasicScanVulnerabilityList.construct_flatten_length (by simp)]
      rw [List.filter_eq_self.mpr (fun v hv => decide_eq_true (hA2 v hv))]
      simp [flattenMap]
  · rw [ECREnhancedScanVulnerabilityList.add, addLists]
    by_cases h : flattenMap B.vulnerability_list = []
    · simp [h, result_flattened_length]
    · rw [if_neg (by simp [h]), result_flattened_length]
      rw [uniquify_list_of_dict, dedup_append_self, List.Nodup.dedup hB1]
      rw [ECREnhancedScanVulnerabilityList.enh_construct_flatten_length (by simp)]
      rw [List.filter_eq_self.mpr (fun v hv => decide_eq_true (hB2 v hv))]
      simp [flattenMap]

/-- Witness for C7 (amended) at concrete duplicate-free collections. -/
theorem union_self_cardinality_check :
    result_flattened_length
      (ECRBasicScanVulnerabilityList.add basicSampleList basicSampleList) = 2 ∧
    result_flattened_length
      (ECREnhancedScanVulnerabilityList.add enhancedSampleList enhancedSampleList) = 2 := by
  have h := union_self_preserves_cardinality_of_duplicate_free
    basicSampleList enhancedSampleList (by decide) (by decide) (by decide) (by decide)
  refine ⟨?_, ?_⟩
  · rw [h.1]
    decide
  · rw [h.2]
    decide

/-- C8: saving fails exactly when the mapping is empty; otherwise the
sorted canonical form is written, in which every package's inner list is
deduplicated by full-record equality and sorted by the record's name, and
the outer mapping is sorted by package key.  Stated generically over the
record format, for any total and transitive key order. -/
theorem save_empty_guard_and_sorted_form {K R : Type} [DecidableEq K]
    [DecidableEq R] (nameOf : R → String) (kle : K → K → Prop) [DecidableRel kle]
    (htot : ∀ x y, kle x y ∨ kle y x)
    (htrans : ∀ x y z, kle x y → kle y z → kle x z)
    (A : ScanVulnerabilityList K R) :
    ((∃ e, save_vulnerability_list nameOf kle A = Except.error e) ↔
      A.vulnerability_list = []) ∧
    (A.vulnerability_list ≠ [] →
      save_vulnerability_list nameOf kle A =
        Except.ok (get_sorted_vulnerability_list nameOf kle A.vulnerability_list)) ∧
    (∀ p ∈ get_sorted_vulnerability_list nameOf kle A.vulnerability_list,
      p.2.Nodup ∧ List.Sorted (nameLe nameOf) p.2) ∧
    List.Sorted kle
      ((get_sorted_vulnerability_list nameOf kle A.vulnerability_list).map
        Prod.fst) := by
  refine ⟨?_, ?_, ?_, ?_⟩
  · unfold save_vulnerability_list
    by_cases h : A.vulnerability_list = []
    · rw [if_pos h]
      exact ⟨fun _ => h, fun _ => ⟨_, rfl⟩⟩
    · rw [if_neg h]
      constructor
      · rintro ⟨e, he⟩
        cases he
      · intro hc
        exact absurd hc h
  · intro h
    unfold save_vulnerability_list
    rw [if_neg h]
  · intro p hp
    unfold get_sorted_vulnerability_list at hp
    rw [List.mem_insertionSort, List.mem_map] at hp
    obtain ⟨q, hq, rfl⟩ := hp
    constructor
    · refine ((List.perm_insertionSort (nameLe nameOf) _).nodup_iff).mpr ?_
      rw [uniquify_list_of_dict]
      exact List.nodup_dedup q.2
    · haveI : IsTotal R (nameLe nameOf) := ⟨fun x y => le_total (nameOf x) (nameOf y)⟩
      haveI : IsTrans R (nameLe nameOf) :=
        ⟨fun x y z hxy hyz => le_trans hxy hyz⟩
      exact List.sorted_insertionSort (nameLe nameOf) _
  · haveI : IsTotal (K × List R) (keyPairLe kle) := ⟨fun p q => htot p.1 q.1⟩
    haveI : IsTrans (K × List R) (keyPairLe kle) :=
      ⟨fun p q r h1 h2 => htrans p.1 q.1 r.1 h1 h2⟩
    have hs := List.sorted_insertionSort (keyPairLe (R := R) kle)
      (A.vulnerability_list.map (fun p =>
        (p.1, List.insertionSort (nameLe nameOf) (uniquify_list_of_dict p.2))))
    unfold get_sorted_vulnerability_list
    exact hs.map Prod.fst (fun p q h => h)

/-- Witness for C8 at a concrete basic-scan collection. -/
theorem save_sorted_check :
    ECRBasicScanVulnerabilityList.save basicSampleList =
      Except.ok
        (ECRBasicScanVulnerabilityList.get_sorted basicSampleList.vulnerability_list) :=
  (save_empty_guard_and_sorted_form (fun v => v.name)
    ECRBasicScanVulnerabilityList.keyLe ECRBasicScanVulnerabilityList.keyLe_total
    ECRBasicScanVulnerabilityList.keyLe_trans basicSampleList).2.1 (by decide)

/-- C9: the basic-scan constructor creates the package key even for a
below-threshold record, leaving it bound to the empty list, so a
collection built solely from below-threshold records has a truthy
mapping: every input record's key is present with an empty bucket, saving
succeeds instead of raising, and the difference operator's emptiness
guards treat the collection as non-empty (subtracting an empty collection
returns the collection itself rather than the None sentinel). -/
theorem below_threshold_records_leave_truthy_keys (min : Nat)
    (l : List BasicScanVulnerability) (hne : l ≠ [])
    (hlow : ∀ v ∈ l, v.severity.val < min) :
    ECRBasicScanVulnerabilityList.construct_allowlist_from_allowlist_formatted_vulnerabilities
        min [] l ≠ [] ∧
    (∀ p ∈ ECRBasicScanVulnerabilityList.construct_allowlist_from_allowlist_formatted_vulnerabilities
        min [] l, p.2 = []) ∧
    (∀ v ∈ l, ECRBasicScanVulnerabilityList.get_package_name v ∈
      (ECRBasicScanVulnerabilityList.construct_allowlist_from_allowlist_formatted_vulnerabilities
        min [] l).map Prod.fst) ∧
    ECRBasicScanVulnerabilityList.save
        ⟨min, ECRBasicScanVulnerabilityList.construct_allowlist_from_allowlist_formatted_vulnerabilities
          min [] l⟩ =
      Except.ok (ECRBasicScanVulnerabilityList.get_sorted
        (ECRBasicScanVulnerabilityList.construct_allowlist_from_allowlist_formatted_vulnerabilities
          min [] l)) ∧
    (∀ B : ECRBasicScanVulnerabilityList.T, B.vulnerability_list = [] →
      ECRBasicScanVulnerabilityList.sub
          ⟨min, ECRBasicScanVulnerabilityList.construct_allowlist_from_allowlist_formatted_vulnerabilities
            min [] l⟩ B =
        some ⟨min, ECRBasicScanVulnerabilityList.construct_allowlist_from_allowlist_formatted_vulnerabilities
          min [] l⟩) := by
  have hc : ECRBasicScanVulnerabilityList.construct_allowlist_from_allowlist_formatted_vulnerabilities
      min [] l ≠ [] :=
    ECRBasicScanVulnerabilityList.construct_ne_nil min (Or.inr hne)
  refine ⟨hc, ?_, ?_, ?_, ?_⟩
  · exact ECRBasicScanVulnerabilityList.construct_buckets_empty
      (fun p hp => by cases hp) hlow
  · exact fun v hv => ECRBasicScanVulnerabilityList.construct_key_mem v hv
  · rw [ECRBasicScanVulnerabilityList.save, save_vulnerability_list, if_neg hc]
    rfl
  · intro B hB
    rw [ECRBasicScanVulnerabilityList.sub, subLists, if_neg hc, if_pos hB]

/-- Witness for C9: one MEDIUM record under a HIGH threshold. -/
theorem below_threshold_check :
    ECRBasicScanVulnerabilityList.construct_allowlist_from_allowlist_formatted_vulnerabilities
        CVESeverity.HIGH.val [] [vMedSample] = [(some "pkgA", [])] ∧
    ECRBasicScanVulnerabilityList.sub
        ⟨CVESeverity.HIGH.val,
          ECRBasicScanVulnerabilityList.construct_allowlist_from_allowlist_formatted_vulnerabilities
            CVESeverity.HIGH.val [] [vMedSample]⟩
        ⟨CVESeverity.HIGH.val, []⟩ =
      some ⟨CVESeverity.HIGH.val,
        ECRBasicScanVulnerabilityList.construct_allowlist_from_allowlist_formatted_vulnerabilities
          CVESeverity.HIGH.val [] [vMedSample]⟩ := by
  have h := below_threshold_records_leave_truthy_keys CVESeverity.HIGH.val
    [vMedSample] (by decide) (by decide)
  exact ⟨by decide, h.2.2.2.2 ⟨CVESeverity.HIGH.val, []⟩ rfl⟩

/-- C10: an enhanced-scan finding whose cvss list has no version-3.1
entry normalizes to cvss_v3_score 0.0 and cvss_v3_severity UNDEFINED —
even when v3.0 or v2.0 scores are present and whatever its flat severity
string says — and construct_allowlist_from_ecr_scan_result leaves every
mapping unchanged by it whenever the threshold is above UNDEFINED. -/
theorem missing_cvss31_is_undefined_and_excluded (f : EcrEnhancedFinding)
    (h31 : ∀ c ∈ f.packageVulnerabilityDetails.cvss, c.version ≠ "3.1")
    (pkg : RawVulnerablePackage) (min : Nat) (hmin : 0 < min)
    (m : VulnMap String AllowListFormatVulnerability) :
    (AllowListFormatVulnerability.fromEcrFinding f pkg).cvss_v3_score = 0 ∧
    (AllowListFormatVulnerability.fromEcrFinding f pkg).cvss_v3_severity =
      CVESeverity.UNDEFINED ∧
    ECREnhancedScanVulnerabilityList.ecrFindingStep min m f = m ∧
    ECREnhancedScanVulnerabilityList.construct_allowlist_from_ecr_scan_result
      min [] [f] = [] := by
  have hz := get_cvss_score_eq_zero h31
  have hsev : ∀ pk : RawVulnerablePackage,
      (AllowListFormatVulnerability.fromEcrFinding f pk).cvss_v3_severity =
        CVESeverity.UNDEFINED := by
    intro pk
    show get_cvss_v3_severity (get_cvss_score f.packageVulnerabilityDetails "3.1") =
      CVESeverity.UNDEFINED
    rw [hz]
    decide
  have hstep : ∀ (mm : VulnMap String AllowListFormatVulnerability),
      ECREnhancedScanVulnerabilityList.ecrFindingStep min mm f = mm := by
    intro mm
    rw [ECREnhancedScanVulnerabilityList.ecrFindingStep]
    generalize f.packageVulnerabilityDetails.vulnerablePackages = pkgs
    induction pkgs generalizing mm with
    | nil => rfl
    | cons pk t ih =>
      rw [List.foldl_cons]
      have hid : ECREnhancedScanVulnerabilityList.ecrPackageStep min f mm pk = mm := by
        simp only [ECREnhancedScanVulnerabilityList.ecrPackageStep]
        rw [if_pos (by rw [hsev pk]; exact hmin)]
      rw [hid]
      exact ih mm
  refine ⟨?_, hsev pkg, hstep m, ?_⟩
  · show get_cvss_score f.packageVulnerabilityDetails "3.1" = 0
    exact hz
  · rw [ECREnhancedScanVulnerabilityList.construct_allowlist_from_ecr_scan_result,
      List.foldl_cons, List.foldl_nil, hstep []]
    rfl

/-- Witness for C10 at a concrete finding carrying only v3.0 and v2.0
scores. -/
theorem missing_cvss31_check :
    (AllowListFormatVulnerability.fromEcrFinding findingNo31 pkgSample).cvss_v3_severity =
      CVESeverity.UNDEFINED ∧
    ECREnhancedScanVulnerabilityList.construct_allowlist_from_ecr_scan_result
      CVESeverity.MEDIUM.val [] [findingNo31] = [] := by
  have h := missing_cvss31_is_undefined_and_excluded findingNo31 (by decide)
    pkgSample CVESeverity.MEDIUM.val (by decide) []
  exact ⟨h.2.1, h.2.2.2⟩

end DLCSecurity
